import Mathlib

/-!
Verification of the well-completion-report extraction backend
(`backend/main.py`, helped by `backend/database.py`).

The Python source is shallowly embedded: coordinates are rationals
(`ℚ`), Python dicts become association lists with insertion-order
semantics, and each Python function relevant to the specification is
translated into an executable Lean definition carrying the same name
where possible.
-/

/-! ## Character and string helpers (ASCII models of `str.upper`,
`str.lower`, `str.isalnum`, `str.strip`, substring membership) -/

/-- ASCII model of Python `str.upper` applied to one character. -/
def charUp (c : Char) : Char :=
  if 'a' ≤ c ∧ c ≤ 'z' then Char.ofNat (c.toNat - 32) else c

/-- ASCII model of Python `str.lower` applied to one character. -/
def charLow (c : Char) : Char :=
  if 'A' ≤ c ∧ c ≤ 'Z' then Char.ofNat (c.toNat + 32) else c

/-- ASCII model of Python `str.isalnum` for one character. -/
def isAlnumCh (c : Char) : Bool :=
  ('0' ≤ c && c ≤ '9') || ('A' ≤ c && c ≤ 'Z') || ('a' ≤ c && c ≤ 'z')

/-- Python whitespace characters stripped by `str.strip`. -/
def isSpaceCh (c : Char) : Bool :=
  c = ' ' || c = '\t' || c = '\n' || c = '\r' || c = '\x0b' || c = '\x0c'

/-- Model of Python `str.upper` (ASCII range). -/
def strUpper (s : String) : String := ⟨s.data.map charUp⟩

/-- Model of Python `str.lower` (ASCII range). -/
def strLower (s : String) : String := ⟨s.data.map charLow⟩

/-- Model of Python `str.strip()`: drop whitespace at both ends. -/
def pyStrip (s : String) : String :=
  ⟨((s.data.dropWhile isSpaceCh).reverse.dropWhile isSpaceCh).reverse⟩

/-- `l` begins with `p` (character lists). -/
def chPre : List Char → List Char → Bool
  | [], _ => true
  | _ :: _, [] => false
  | a :: as, b :: bs => a = b && chPre as bs

/-- `needle` occurs as a contiguous sublist of the second argument. -/
def chSub (needle : List Char) : List Char → Bool
  | [] => needle.isEmpty
  | c :: rest => chPre needle (c :: rest) || chSub needle rest

/-- Model of Python `needle in hay` on strings (substring test). -/
def strHas (hay needle : String) : Bool := chSub needle.data hay.data

/-! ## Python dicts as insertion-ordered association lists -/

/-- The keys of a dict, in insertion order. -/
def dictKeys {v : Type} (d : List (String × v)) : List String := d.map Prod.fst

/-- Model of Python `k in d`. -/
def dictHasKey {v : Type} (d : List (String × v)) (k : String) : Bool :=
  (dictKeys d).contains k

/-- Model of Python `d[k]` / `d.get(k)`: first entry with key `k`
(keys are unique in a real dict, so "first" is exact). -/
def dictGet {v : Type} (d : List (String × v)) (k : String) : Option v :=
  (d.find? (fun kv => kv.1 == k)).map Prod.snd

/-- Model of Python `d.get(k, default)`. -/
def dictGetD {v : Type} (d : List (String × v)) (k : String) (dflt : v) : v :=
  (dictGet d k).getD dflt

/-- Model of Python `d[k] = x`: overwrite in place if the key exists,
otherwise append at the end (insertion order preserved). -/
def dictSet {v : Type} (d : List (String × v)) (k : String) (x : v) :
    List (String × v) :=
  if dictHasKey d k then d.map (fun kv => if kv.1 = k then (k, x) else kv)
  else d ++ [(k, x)]

/-! ## CoordinateMapper: `get_canonical_bbox` (main.py lines 216-265)

Python floats are modelled as rationals; the function is a direct
transcription of steps 1-5 of the source. -/

/-- Embedding of `get_canonical_bbox` from `backend/main.py`. -/
def get_canonical_bbox (page_w page_h view_w view_h
    sel_x sel_y sel_w sel_h : ℚ) : ℚ × ℚ × ℚ × ℚ :=
  if view_w ≤ 0 ∨ view_h ≤ 0 then (0, 0, 0, 0)
  else
    let scale_x := page_w / view_w
    let scale_y0 := page_h / view_h
    let scale_y := if |scale_x - scale_y0| / scale_x > 2/100 then scale_x
      else scale_y0
    let x0 := sel_x * scale_x
    let top := sel_y * scale_y
    let x1 := (sel_x + sel_w) * scale_x
    let bottom := (sel_y + sel_h) * scale_y
    let x0c := max 0 (min x0 page_w)
    let topc := max 0 (min top page_h)
    let x1c := max x0c (min x1 page_w)
    let bottomc := max topc (min bottom page_h)
    (x0c, topc, x1c, bottomc)

/-- The bbox invariant stated by the spec: ordered corners inside
`[0, page_w] × [0, page_h]`. -/
def bboxOK (page_w page_h : ℚ) (b : ℚ × ℚ × ℚ × ℚ) : Prop :=
  b.1 ≤ b.2.2.1 ∧ b.2.1 ≤ b.2.2.2 ∧
  0 ≤ b.1 ∧ b.2.2.1 ≤ page_w ∧ 0 ≤ b.2.1 ∧ b.2.2.2 ≤ page_h

/-- The result of scaling the selection by a single factor `s` on both
axes and then clamping exactly as steps 4-5 of `get_canonical_bbox`. -/
def scaleBothClamped (page_w page_h s sel_x sel_y sel_w sel_h : ℚ) :
    ℚ × ℚ × ℚ × ℚ :=
  let x0c := max 0 (min (sel_x * s) page_w)
  let topc := max 0 (min (sel_y * s) page_h)
  (x0c, topc, max x0c (min ((sel_x + sel_w) * s) page_w),
   max topc (min ((sel_y + sel_h) * s) page_h))

/-- C1: for positive document and view dimensions and any selection
rectangle, the bbox returned by `get_canonical_bbox` satisfies
`x0 ≤ x1`, `top ≤ bottom`, `0 ≤ x0`, `x1 ≤ page_w`, `0 ≤ top`,
`bottom ≤ page_h`. -/
theorem get_canonical_bbox_in_bounds
    (page_w page_h view_w view_h sel_x sel_y sel_w sel_h : ℚ)
    (hpw : 0 < page_w) (hph : 0 < page_h)
    (hvw : 0 < view_w) (hvh : 0 < view_h) :
    bboxOK page_w page_h
      (get_canonical_bbox page_w page_h view_w view_h
        sel_x sel_y sel_w sel_h) := by
  have hcond : ¬ (view_w ≤ 0 ∨ view_h ≤ 0) := by
    push_neg
    exact ⟨hvw, hvh⟩
  simp only [get_canonical_bbox, hcond, if_false, bboxOK]
  refine ⟨le_max_left _ _, le_max_left _ _, le_max_left _ _, ?_, le_max_left _ _, ?_⟩
  · exact max_le (max_le hpw.le (min_le_right _ _)) (min_le_right _ _)
  · exact max_le (max_le hph.le (min_le_right _ _)) (min_le_right _ _)

/-- Witness for C1 at a concrete input. -/
theorem get_canonical_bbox_in_bounds_witness :
    bboxOK 612 792 (get_canonical_bbox 612 792 600 800 10 20 100 50) :=
  get_canonical_bbox_in_bounds 612 792 600 800 10 20 100 50
    (by norm_num) (by norm_num) (by norm_num) (by norm_num)

/-- C2: whenever the relative difference between
`scale_x = page_w / view_w` and `scale_y = page_h / view_h` exceeds 2%,
`get_canonical_bbox` overrides `scale_y` with `scale_x`, so every
selection coordinate is scaled by `scale_x` on both axes before
clamping. -/
theorem get_canonical_bbox_trust_width
    (page_w page_h view_w view_h sel_x sel_y sel_w sel_h : ℚ)
    (hvw : 0 < view_w) (hvh : 0 < view_h)
    (hmis : |page_w / view_w - page_h / view_h| / (page_w / view_w)
      > 2/100) :
    get_canonical_bbox page_w page_h view_w view_h
        sel_x sel_y sel_w sel_h
      = scaleBothClamped page_w page_h (page_w / view_w)
          sel_x sel_y sel_w sel_h := by
  have hcond : ¬ (view_w ≤ 0 ∨ view_h ≤ 0) := by
    push_neg
    exact ⟨hvw, hvh⟩
  simp only [get_canonical_bbox, hcond, if_false, hmis, if_pos,
    scaleBothClamped]

/-- Witness for C2: the spec's concrete scenario
`page_w = 1000, page_h = 500, view_w = 500, view_h = 300`
(`scale_x = 2`, `scale_y ≈ 1.667`, mismatch over 2%): every selection
coordinate is doubled on both axes before clamping. -/
theorem get_canonical_bbox_trust_width_witness :
    get_canonical_bbox 1000 500 500 300 100 50 200 100
      = scaleBothClamped 1000 500 2 100 50 200 100 := by
  have h := get_canonical_bbox_trust_width 1000 500 500 300 100 50 200 100
    (by norm_num) (by norm_num)
    (by
      rw [show (1000 : ℚ)/500 - 500/300 = 1/3 by norm_num,
        show |(1 : ℚ)/3| = 1/3 from abs_of_pos (by norm_num)]
      norm_num)
  rw [h]
  norm_num

/-! ## ExtractionStrategyManager: the `/extract` PDF-path quality gate
(main.py lines 762-788)

An extracted record is a Python dict from raw field name to value. -/

/-- One extracted record: raw field name → value. -/
abbrev Record := List (String × String)

/-- Embedding of the native-quality test of `extract` (main.py 762-776):
low quality when the native result is empty, or its first record is a
warning/error placeholder with at most 50 characters of stripped raw
text, or its first record has fewer than 2 fields. -/
def native_quality_low (raw : List Record) : Bool :=
  match raw with
  | [] => true
  | r :: _ =>
    if dictHasKey r "_warning" || dictHasKey r "_error" then
      decide ((pyStrip (dictGetD r "raw_text" "")).data.length ≤ 50)
    else
      decide ((dictKeys r).length < 2)

/-- `extract` attempts the OCR strategy exactly when the native result
is empty or judged low-quality (main.py 779-785). -/
def ocr_attempted (native : List Record) : Bool :=
  native.isEmpty || native_quality_low native

/-- Embedding of the fallback logic of `extract` (main.py 779-788):
the final `raw_data`, given the native result and the (deterministic)
OCR result. OCR output replaces the native result only when it is
non-empty. -/
def extract_pdf_raw_data (native ocr : List Record) : List Record :=
  let low := native_quality_low native
  let rd := if native.isEmpty then ocr else native
  if low then (if ocr.isEmpty then rd else ocr) else rd

/-- C3: if the native result is exactly one record with a single field
whose stripped raw-text payload has 30 characters, the OCR strategy is
attempted; and if OCR returns zero records, the final `raw_data` is
exactly the original one-record native result, unchanged. -/
theorem extract_single_field_keeps_native (k v : String)
    (h : (pyStrip (dictGetD [(k, v)] "raw_text" "")).data.length = 30) :
    ocr_attempted [[(k, v)]] = true ∧
    extract_pdf_raw_data [[(k, v)]] [] = [[(k, v)]] := by
  have hlow : native_quality_low [[(k, v)]] = true := by
    simp only [native_quality_low]
    split
    · rw [h]
      rfl
    · rfl
  refine ⟨by simp [ocr_attempted, hlow], ?_⟩
  simp [extract_pdf_raw_data, hlow]

/-- Witness for C3 at a concrete 30-character native record. -/
theorem extract_single_field_keeps_native_witness :
    ocr_attempted [[("raw_text", "CASING DETAILS 7 INCH AT 2000m")]] = true ∧
    extract_pdf_raw_data [[("raw_text", "CASING DETAILS 7 INCH AT 2000m")]] []
      = [[("raw_text", "CASING DETAILS 7 INCH AT 2000m")]] :=
  extract_single_field_keeps_native "raw_text"
    "CASING DETAILS 7 INCH AT 2000m" (by decide)

/-! ## TableReconstructor: the deterministic CASING clustering
(main.py lines 469-550)

A word returned by `pdfplumber.extract_words` is a token with a text
and a bounding box. -/

/-- A positional text token (a `pdfplumber` word dict). -/
structure Tok where
  text : String
  x0 : ℚ
  x1 : ℚ
  top : ℚ
  bottom : ℚ

/-- Horizontal center of a token, `(x0 + x1) / 2`. -/
def xCenter (w : Tok) : ℚ := (w.x0 + w.x1) / 2

/-- Insert an element into a list sorted on `key`, after all elements
with a key not larger (the placement Python's stable sort gives). -/
def insKeyed {α : Type} (key : α → ℚ) (x : α) : List α → List α
  | [] => [x]
  | y :: ys => if key x < key y then x :: y :: ys else y :: insKeyed key x ys

/-- Stable sort on a rational key: model of Python
`sorted(l, key=...)`. -/
def pySortBy {α : Type} (key : α → ℚ) (l : List α) : List α :=
  l.foldl (fun acc x => insKeyed key x acc) []

/-- Seed partition (main.py 484-487): token at sorted position `i` of
`n` goes to seed column `i * 9 / n`; this returns the nine seed
groups in order. -/
def seedGroups (wsSorted : List Tok) : List (List Tok) :=
  (List.range 9).map (fun j =>
    ((wsSorted.enum).filter
      (fun p => p.1 * 9 / wsSorted.length == j)).map Prod.snd)

/-- Python `min` over a non-empty list (0 never reached). -/
def listMinQ : List ℚ → ℚ
  | [] => 0
  | x :: xs => xs.foldl min x

/-- Python `max` over a non-empty list (0 never reached). -/
def listMaxQ : List ℚ → ℚ
  | [] => 0
  | x :: xs => xs.foldl max x

/-- Column bound of one seed group (main.py 489-496): `[min xs, max xs]`
over all `x0` and `x1` of the group, sentinel `(-1, -1)` when empty. -/
def boundsOf (col : List Tok) : ℚ × ℚ :=
  match col with
  | [] => (-1, -1)
  | _ :: _ =>
    let xs := col.map Tok.x0 ++ col.map Tok.x1
    (listMinQ xs, listMaxQ xs)

/-- Embedding of `assign_column` (main.py 499-505): the first column
whose non-sentinel bound contains the token's horizontal center within
tolerance 2, else none. -/
def assign_column (col_bounds : List (ℚ × ℚ)) (w : Tok) : Option Nat :=
  ((col_bounds.enum).find? (fun p =>
    !(p.2.1 == -1) && decide (p.2.1 - 2 ≤ xCenter w)
      && decide (xCenter w ≤ p.2.2 + 2))).map Prod.fst

/-- Embedding of `same_row` (main.py 511-515): vertical extents overlap
within tolerance 4. -/
def same_row (w1 w2 : Tok) : Bool :=
  !(decide (w1.bottom < w2.top - 4) || decide (w2.bottom < w1.top - 4))

/-- One step of the greedy row grouping (main.py 519-527): append the
token to the first row whose first token is in the same row, else
start a new row at the end. -/
def placeTok : List (List Tok) → Tok → List (List Tok)
  | [], w => [[w]]
  | r :: rest, w =>
    match r with
    | [] => r :: placeTok rest w
    | h :: _ => if same_row w h then (r ++ [w]) :: rest
      else r :: placeTok rest w

/-- Row grouping (main.py 517-527): fold the tokens sorted by `top`
through `placeTok`. -/
def buildRows (ws : List Tok) : List (List Tok) :=
  (pySortBy Tok.top ws).foldl placeTok []

/-- Sort key used by `rows.sort(key=lambda r: r[0]["top"])`. -/
def rowKey (r : List Tok) : ℚ :=
  match r with
  | [] => 0
  | h :: _ => h.top

/-- Row ordering (main.py 531). -/
def sortRows (rows : List (List Tok)) : List (List Tok) := pySortBy rowKey rows

/-- The row and column assignments the CASING clustering computes
(main.py 477-531): per-token column index (in original token order, as
the code stores it on each word) and the ordered grouped rows.
Nothing is computed when the region has no tokens or fewer than 9. -/
def casingAssignments (ws : List Tok) : List (Option Nat) × List (List Tok) :=
  if ws.isEmpty then ([], [])
  else if ws.length < 9 then ([], [])
  else
    let sorted := pySortBy xCenter ws
    let col_bounds := (seedGroups sorted).map boundsOf
    (ws.map (assign_column col_bounds), sortRows (buildRows ws))

/-- Embedding of the `try` block of STRATEGY 1 (main.py 470-546).
After the row/column assignments succeed, the reconstruction loop
(main.py 533-542) reads the name `table_data`, which is never
initialized anywhere in `extract_from_region`; Python raises
`NameError` there whenever the region holds at least 9 words. -/
def casingTryBlock (ws : List Tok) :
    Except String (List (List (List String))) :=
  if ws.isEmpty then .ok []
  else if ws.length < 9 then .ok []
  else
    let sorted := pySortBy xCenter ws
    let col_bounds := (seedGroups sorted).map boundsOf
    let _cols := ws.map (assign_column col_bounds)
    let _rows := sortRows (buildRows ws)
    .error "NameError: name 'table_data' is not defined"

/-- STRATEGY 1 as seen by the rest of `extract_from_region`
(main.py 469-550): the `except` handler swallows the exception and
leaves `tables` empty. -/
def casingStrategyTables (label : String) (ws : List Tok) :
    List (List (List String)) :=
  if strHas (strUpper label) "CASING" then
    match casingTryBlock ws with
    | .ok t => t
    | .error _ => []
  else []

/-- C4: the CASING clustering is deterministic — identical token lists
always yield identical row and column assignments. -/
theorem casing_clustering_deterministic (ws1 ws2 : List Tok)
    (h : ws1 = ws2) : casingAssignments ws1 = casingAssignments ws2 := by
  rw [h]

/-- A concrete cropped region holding one visual row of 9 words. -/
def sampleToks : List Tok :=
  (List.range 9).map (fun i =>
    { text := "w", x0 := 10 + 60 * i, x1 := 40 + 60 * i,
      top := 100, bottom := 110 })

/-- Witness for C4 at a concrete 9-token region. -/
theorem casing_clustering_deterministic_witness :
    casingAssignments sampleToks = casingAssignments sampleToks :=
  casing_clustering_deterministic sampleToks sampleToks rfl

/-- C5 (code bug): on a CASING selection whose region holds 9 words,
the deterministic reconstruction path produces no table at all — the
reconstruction loop raises `NameError` on the uninitialized
`table_data` (main.py 540), the handler discards it, and STRATEGY 1
yields no tables — contradicting the claimed rows of 9 cell strings. -/
theorem casing_strategy_table_data_bug :
    sampleToks.length = 9 ∧
    casingTryBlock sampleToks
      = .error "NameError: name 'table_data' is not defined" ∧
    casingStrategyTables "CASING" sampleToks = [] :=
  ⟨rfl, rfl, rfl⟩

/-! ## Region gating in `extract_from_region` and page selection
(main.py lines 281-286, 438-460)

The selection model mirrors the `RegionSelection` pydantic model
(main.py 62-77) with its zero defaults. -/

/-- Embedding of `RegionSelection`. -/
structure RegionSelection where
  page_number : Int
  x_pct : ℚ := 0
  y_pct : ℚ := 0
  w_pct : ℚ := 0
  h_pct : ℚ := 0
  x : ℚ := 0
  y : ℚ := 0
  width : ℚ := 0
  height : ℚ := 0
  view_width : ℚ := 0
  view_height : ℚ := 0
  label : String
  use_ai : Bool := false

/-- The bbox `extract_from_region` works with (main.py 447-453):
the canonical transformation when `view_width > 0`, otherwise the
legacy percentage fallback. -/
def regionBBox (page_w page_h : ℚ) (sel : RegionSelection) : ℚ × ℚ × ℚ × ℚ :=
  if sel.view_width > 0 then
    get_canonical_bbox page_w page_h sel.view_width sel.view_height
      sel.x sel.y sel.width sel.height
  else
    (sel.x_pct * page_w, sel.y_pct * page_h,
     (sel.x_pct + sel.w_pct) * page_w, (sel.y_pct + sel.h_pct) * page_h)

/-- The size gate of `extract_from_region` (main.py 458-460): `none`
means the function returns `[]` before any extraction strategy runs;
`some bbox` means extraction proceeds on that bbox. -/
def regionGate (page_w page_h : ℚ) (sel : RegionSelection) :
    Option (ℚ × ℚ × ℚ × ℚ) :=
  let b := regionBBox page_w page_h sel
  if b.2.2.1 - b.1 ≤ 1 ∨ b.2.2.2 - b.2.1 ≤ 1 then none else some b

/-- A selection with `view_width = 0` but a full-page legacy
percentage rectangle. -/
def fullPctSel : RegionSelection :=
  { page_number := 1, w_pct := 1, h_pct := 1, label := "CASING" }

/-- Counterexample to C9: with `view_width = 0` but a non-zero legacy
percentage rectangle, `extract_from_region` does not stop with an
empty result — the legacy path yields a full-page bbox and extraction
proceeds. -/
theorem view_width_zero_counterexample :
    fullPctSel.view_width = 0 ∧
    regionGate 612 792 fullPctSel = some (0, 0, 612, 792) := by
  exact ⟨rfl, by norm_num [regionGate, regionBBox, fullPctSel]⟩

/-- C9 as amended: for a selection with `view_width = 0` whose legacy
percentage fields are all at their zero defaults, `get_canonical_bbox`
returns the degenerate bbox `(0, 0, 0, 0)`, and `extract_from_region`
(which takes the legacy percentage path) also obtains a degenerate
bbox, runs no extraction strategy and returns an empty result. -/
theorem view_width_zero_empty (page_w page_h : ℚ) (sel : RegionSelection)
    (hvw : sel.view_width = 0) (hx : sel.x_pct = 0) (hy : sel.y_pct = 0)
    (hw : sel.w_pct = 0) (hh : sel.h_pct = 0) :
    get_canonical_bbox page_w page_h sel.view_width sel.view_height
        sel.x sel.y sel.width sel.height = (0, 0, 0, 0) ∧
    regionGate page_w page_h sel = none := by
  constructor
  · rw [hvw]
    simp [get_canonical_bbox]
  · norm_num [regionGate, regionBBox, hvw, hx, hy, hw, hh]

/-- Witness for the amended C9 at a concrete default selection. -/
theorem view_width_zero_empty_witness :
    get_canonical_bbox 612 792
        (RegionSelection.view_width { page_number := 1, label := "CASING" })
        (RegionSelection.view_height { page_number := 1, label := "CASING" })
        (RegionSelection.x { page_number := 1, label := "CASING" })
        (RegionSelection.y { page_number := 1, label := "CASING" })
        (RegionSelection.width { page_number := 1, label := "CASING" })
        (RegionSelection.height { page_number := 1, label := "CASING" })
      = (0, 0, 0, 0) ∧
    regionGate 612 792 { page_number := 1, label := "CASING" } = none :=
  view_width_zero_empty 612 792 { page_number := 1, label := "CASING" }
    rfl rfl rfl rfl rfl

/-- Python list indexing `l[i]`: non-negative indices from the front,
negative indices from the back, `none` for `IndexError`. -/
def pyIndex {α : Type} (l : List α) (i : Int) : Option α :=
  if 0 ≤ i then l.get? i.toNat
  else if 0 ≤ i + l.length then l.get? (i + l.length).toNat
  else none

/-- The page lookup of `extract_from_region` (main.py 442):
`pdf.pages[sel.page_number - 1]` with Python indexing. -/
def regionPage {α : Type} (pages : List α) (page_number : Int) : Option α :=
  pyIndex pages (page_number - 1)

/-- Embedding of the page-range guard of `extract_with_ocr`
(main.py 282-286), with the rest of the OCR pipeline abstracted as
`rest`: out-of-range page numbers return `[]` before any OCR work. -/
def extract_with_ocr_gate {α : Type} (pages : List α) (page_number : Int)
    (rest : α → List Record) : List Record :=
  if page_number < 1 ∨ page_number > pages.length then []
  else
    match pyIndex pages (page_number - 1) with
    | some p => rest p
    | none => []

/-- The element at position `length - 1` is the last element. -/
theorem list_get_pred_length {α : Type} :
    ∀ (l : List α), l.get? (l.length - 1) = l.getLast?
  | [] => rfl
  | [_] => rfl
  | a :: b :: t => by
    have h : (a :: b :: t).get? ((a :: b :: t).length - 1)
        = (b :: t).get? ((b :: t).length - 1) := by
      simp [List.length_cons]
    rw [h, list_get_pred_length (b :: t), List.getLast?_cons_cons]

/-- C10: for `page_number = 0` on a non-empty PDF, the page lookup of
`extract_from_region` hits Python index `-1` and selects the last page
without raising, so extraction proceeds against the last page; while
`extract_with_ocr` returns the empty list for any `page_number < 1`. -/
theorem page_zero_selects_last_page {α : Type} (pages : List α)
    (rest : α → List Record) (pn : Int)
    (hne : pages ≠ []) (hpn : pn < 1) :
    regionPage pages 0 = pages.getLast? ∧
    (regionPage pages 0).isSome = true ∧
    extract_with_ocr_gate pages pn rest = [] := by
  have hlen : 0 < pages.length := List.length_pos.mpr hne
  have h1 : regionPage pages 0 = pages.getLast? := by
    have hge : (0 : Int) ≤ 0 - 1 + pages.length := by omega
    have htn : ((0 : Int) - 1 + pages.length).toNat = pages.length - 1 := by
      omega
    rw [regionPage, pyIndex, if_neg (by omega), if_pos hge, htn,
      list_get_pred_length]
  refine ⟨h1, ?_, ?_⟩
  · rw [h1, List.getLast?_eq_getLast_of_ne_nil hne]
    rfl
  · rw [extract_with_ocr_gate, if_pos (Or.inl hpn)]

/-- Witness for C10 on a concrete two-page document. -/
theorem page_zero_selects_last_page_witness :
    regionPage ([7, 8] : List Nat) 0 = ([7, 8] : List Nat).getLast? ∧
    (regionPage ([7, 8] : List Nat) 0).isSome = true ∧
    extract_with_ocr_gate ([7, 8] : List Nat) 0 (fun _ => []) = [] :=
  page_zero_selects_last_page [7, 8] (fun _ => []) 0 (by decide) (by decide)

/-! ## SchemaMatcher: `validate_data` (main.py lines 626-724)

A schema is the ordered list of canonical column names returned by
`get_table_schema` (types are irrelevant to matching). -/

/-- Embedding of `normalize_key` (main.py 640-642): upper-case, then
keep only alphanumeric characters. -/
def normalize_key (k : String) : String :=
  ⟨(k.data.map charUp).filter isAlnumCh⟩

/-- Lookup in `schema_map = {normalize_key(k): k for k in schema}`
(main.py 645): for a normalized name, the LAST schema column with that
normalized form (a later dict-comprehension entry overwrites an
earlier one). -/
def schemaMapLookup (schema : List String) (nk : String) : Option String :=
  (schema.filter (fun k => normalize_key k == nk)).getLast?

/-- `sql_cols_normalized` (main.py 647). -/
def sqlColsNormalized (schema : List String) : List (String × String) :=
  schema.map (fun k => (normalize_key k, k))

/-- The substring fuzzy rule (main.py 677-682): the first schema column
whose normalized form is contained in the normalized raw field name and
is longer than 2 characters. -/
def fuzzySubstrMatch (schema : List String) (norm_key : String) :
    Option String :=
  ((sqlColsNormalized schema).find? (fun p =>
    strHas norm_key p.1 && decide (p.1.data.length > 2))).map Prod.snd

/-- The semantic pattern rules (main.py 684-699). -/
def semanticMatch (schema : List String) (key : String) : Option String :=
  let kl := strLower key
  if strHas kl "type" &&
      (schema.contains "casing" || schema.any (fun c => strHas c "CASING_TYPE"))
    then some "CASING_TYPE"
  else if (strHas kl "depth" || strHas kl "bottom")
      && schema.contains "CASING_BOTTOM" then some "CASING_BOTTOM"
  else if strHas kl "top" && schema.contains "CASING_TOP" then
    some "CASING_TOP"
  else if (strHas kl "diameter" || strHas kl "od")
      && schema.contains "OUTER_DIAMETER" then some "OUTER_DIAMETER"
  else if (strHas kl "length" || strHas kl "grade")
      && schema.contains "STEEL_GRADE" then some "STEEL_GRADE"
  else if (strHas kl "material" || strHas kl "grade")
      && schema.contains "MATERIAL_TYPE" then some "MATERIAL_TYPE"
  else none

/-- One raw field name mapped to a canonical column (main.py 670-699):
exact normalized match, then substring fuzzy match, then semantic
rules. -/
def mapRawField (schema : List String) (key : String) : Option String :=
  match schemaMapLookup schema (normalize_key key) with
  | some c => some c
  | none =>
    match fuzzySubstrMatch schema (normalize_key key) with
    | some c => some c
    | none => semanticMatch schema key

/-- `IGNORED_COLUMNS` (main.py 626-629). -/
def IGNORED_COLUMNS : List String :=
  ["ID", "MODEL", "INSERT_DATE", "MATCH_PERCENT",
   "VECTOR_IDS", "PAGE_NUMBERS", "MATCH_ID"]

/-- `display_columns` (main.py 650): schema columns whose upper-case
form is not an ignored system column. -/
def display_columns (schema : List String) : List String :=
  schema.filter (fun k => !(IGNORED_COLUMNS.contains (strUpper k)))

/-- Python `key.startswith("_")`. -/
def startsUnderscore (s : String) : Bool :=
  match s.data with
  | [] => false
  | c :: _ => c = '_'

/-- Python `"; ".join(errors)`. -/
def joinSemi : List String → String
  | [] => ""
  | [e] => e
  | e :: rest => e ++ "; " ++ joinSemi rest

/-- The field-mapping loop of `validate_data` (main.py 666-705): builds
`clean_row` (canonical column → value), the error list, and the row
status (`VALID` unless an unknown column was seen). -/
def mapRowFields (schema : List String) (row : Record) :
    List (String × Option String) × List String × String :=
  row.foldl (fun acc kv =>
    if startsUnderscore kv.1 then acc
    else
      match mapRawField schema kv.1 with
      | some c => (dictSet acc.1 c (some kv.2), acc.2.1, acc.2.2)
      | none => (acc.1, acc.2.1 ++ ["Unknown column: " ++ kv.1], "INVALID"))
    ([], [], "VALID")

/-- The empty-row adjustment (main.py 710-713): a row with no mapped
data and no errors becomes a WARNING row. -/
def rowStatusErrors (schema : List String) (row : Record) :
    String × List String :=
  let m := mapRowFields schema row
  if m.1.isEmpty && m.2.1.isEmpty then ("WARNING", ["No data extracted"])
  else (m.2.2, m.2.1)

/-- One fill step of main.py 716-718. -/
def fillStep (d : List (String × Option String)) (c : String) :
    List (String × Option String) :=
  if dictHasKey d c then d else dictSet d c none

/-- The fill loop of main.py 716-718 over a column list. -/
def fillFold (cols : List String) (d : List (String × Option String)) :
    List (String × Option String) :=
  cols.foldl fillStep d

/-- One row of `validate_data` (main.py 652-722): warning/error rows
are copied as-is plus a `_status`; other rows get their fields mapped,
missing display columns filled with `None`, and `_status`/`_errors`
appended. -/
def validateRow (schema : List String) (row : Record) :
    List (String × Option String) :=
  if dictHasKey row "_warning" || dictHasKey row "_error" then
    dictSet (row.map (fun kv => (kv.1, some kv.2))) "_status"
      (some (if dictHasKey row "_warning" then "WARNING" else "ERROR"))
  else
    dictSet
      (dictSet
        (fillFold (display_columns schema) (mapRowFields schema row).1)
        "_status" (some (rowStatusErrors schema row).1))
      "_errors" (some (joinSemi (rowStatusErrors schema row).2))

/-- Embedding of `validate_data` (main.py 631-724): the display schema
and the validated rows. -/
def validate_data (schema : List String) (data : List Record) :
    List String × List (List (String × Option String)) :=
  (display_columns schema, data.map (validateRow schema))

/-- The `WCR_WELLHEAD` column list (`backend/database.py`,
`get_postgres_schema`). -/
def wcr_wellhead_schema : List String :=
  ["UWI", "WELL_NAME", "FIELD", "RELEASE_NAME", "LOCATION_TYPE",
   "BOTTOM_LONG", "BOTTOM_LAT", "SURFACE_LONG", "SURFACE_LAT", "CATEGORY",
   "WELL_PROFILE", "TARGET_DEPTH", "DRILLED_DEPTH", "LOGGERS_DEPTH", "K_B",
   "G_L", "RIG", "SPUD_DATE", "HERMETICAL_TEST_DATE",
   "DRILLING_COMPLETED_DATE", "RIG_RELEASED_DATE", "FORMATION_AT_TD",
   "RELEASE_ORDER_NO", "OBJECTIVE", "STATUS", "ID", "MODEL", "INSERT_DATE",
   "MATCH_PERCENT", "VECTOR_IDS", "PAGE_NUMBERS"]


/-! ### Dictionary lemmas -/

/-- Key membership as a proposition. -/
theorem dictHasKey_iff {v : Type} (d : List (String × v)) (k : String) :
    dictHasKey d k = true ↔ k ∈ dictKeys d := by
  simp [dictHasKey]

/-- Lookup on a cons cell. -/
theorem dictGet_cons {v : Type} (a : String × v) (d : List (String × v))
    (k : String) :
    dictGet (a :: d) k = if (a.1 == k) then some a.2 else dictGet d k := by
  cases h : (a.1 == k)
  · simp [dictGet, List.find?, h]
  · simp [dictGet, List.find?, h]

/-- Key test on a cons cell. -/
theorem dictHasKey_cons {v : Type} (a : String × v) (d : List (String × v))
    (k : String) :
    dictHasKey (a :: d) k = ((k == a.1) || dictHasKey d k) := by
  simp [dictHasKey, dictKeys, List.contains_cons]

/-- `dictSet` keeps the key list, or appends the new key at the end. -/
theorem dictKeys_dictSet {v : Type} (d : List (String × v)) (k : String)
    (x : v) :
    dictKeys (dictSet d k x)
      = if dictHasKey d k then dictKeys d else dictKeys d ++ [k] := by
  unfold dictSet
  cases h : dictHasKey d k
  · simp only [Bool.false_eq_true, if_false, dictKeys, List.map_append,
      List.map_cons, List.map_nil]
  · simp only [if_true, dictKeys, List.map_map]
    refine List.map_congr_left ?_
    intro kv _
    simp only [Function.comp]
    split
    · next h2 => exact h2.symm
    · rfl

/-- The written key is present after `dictSet`. -/
theorem mem_dictKeys_dictSet_self {v : Type} (d : List (String × v))
    (k : String) (x : v) : k ∈ dictKeys (dictSet d k x) := by
  rw [dictKeys_dictSet]
  split
  · next h => exact (dictHasKey_iff d k).mp h
  · exact List.mem_append_right _ (by simp)

/-- Existing keys survive `dictSet`. -/
theorem mem_dictKeys_dictSet_mono {v : Type} (d : List (String × v))
    (k : String) (x : v) (k1 : String) (h : k1 ∈ dictKeys d) :
    k1 ∈ dictKeys (dictSet d k x) := by
  rw [dictKeys_dictSet]
  split
  · exact h
  · exact List.mem_append_left _ h

/-- Replacing in place: lookup of the replaced key. -/
theorem dictGet_map_replace {v : Type} (k : String) (x : v)
    (d : List (String × v)) :
    dictGet (d.map (fun kv => if kv.1 = k then (k, x) else kv)) k
      = if dictHasKey d k then some x else none := by
  induction d with
  | nil => simp [dictGet, dictHasKey, dictKeys]
  | cons a d ih =>
    rw [List.map_cons, dictGet_cons, dictHasKey_cons]
    by_cases h : a.1 = k
    · simp [h, ih]
    · have hb : (a.1 == k) = false := by simp [h]
      have hb2 : (k == a.1) = false :=
        beq_eq_false_iff_ne.mpr (fun hh => h hh.symm)
      simp [h, hb, hb2, ih]

/-- Appending a fresh key: lookup of the appended key. -/
theorem dictGet_append_new {v : Type} (k : String) (x : v)
    (d : List (String × v)) (h : dictHasKey d k = false) :
    dictGet (d ++ [(k, x)]) k = some x := by
  induction d with
  | nil => simp [dictGet, List.find?]
  | cons a d ih =>
    rw [dictHasKey_cons, Bool.or_eq_false_iff] at h
    have hb : (a.1 == k) = false :=
      beq_eq_false_iff_ne.mpr
        (fun hh => (beq_eq_false_iff_ne.mp h.1) hh.symm)
    rw [List.cons_append, dictGet_cons]
    simp [hb, ih h.2]

/-- Lookup of the written key after `dictSet`. -/
theorem dictGet_dictSet_self {v : Type} (d : List (String × v)) (k : String)
    (x : v) : dictGet (dictSet d k x) k = some x := by
  unfold dictSet
  split
  · next h => rw [dictGet_map_replace, if_pos h]
  · next h =>
    refine dictGet_append_new k x d ?_
    cases hq : dictHasKey d k
    · rfl
    · exact absurd hq h

/-- In-place replacement does not change lookups at other keys. -/
theorem dictGet_map_replace_other {v : Type} (k : String) (x : v)
    (k1 : String) (hne : k1 ≠ k) (d : List (String × v)) :
    dictGet (d.map (fun kv => if kv.1 = k then (k, x) else kv)) k1
      = dictGet d k1 := by
  induction d with
  | nil => rfl
  | cons a d ih =>
    rw [List.map_cons, dictGet_cons, dictGet_cons]
    by_cases h : a.1 = k
    · have h1 : (k == k1) = false :=
        beq_eq_false_iff_ne.mpr (fun hh => hne hh.symm)
      have h2 : (a.1 == k1) = false := by rw [h]; exact h1
      simp [h, h1, h2, ih]
    · cases h3 : (a.1 == k1) <;> simp [h, h3, ih]

/-- Appending a fresh entry does not change lookups at other keys. -/
theorem dictGet_append_other {v : Type} (k : String) (x : v) (k1 : String)
    (hne : k1 ≠ k) (d : List (String × v)) :
    dictGet (d ++ [(k, x)]) k1 = dictGet d k1 := by
  induction d with
  | nil =>
    simp [dictGet, List.find?,
      beq_eq_false_iff_ne.mpr (fun hh => hne hh.symm)]
  | cons a d ih =>
    rw [List.cons_append, dictGet_cons, dictGet_cons]
    cases h3 : (a.1 == k1) <;> simp [h3, ih]

/-- `dictSet` does not change lookups at other keys. -/
theorem dictGet_dictSet_other {v : Type} (d : List (String × v))
    (k : String) (x : v) (k1 : String) (hne : k1 ≠ k) :
    dictGet (dictSet d k x) k1 = dictGet d k1 := by
  unfold dictSet
  split
  · exact dictGet_map_replace_other k x k1 hne d
  · exact dictGet_append_other k x k1 hne d

/-! ### Fill-loop lemmas (main.py 716-718) -/

/-- `fillStep` keeps existing keys. -/
theorem mem_dictKeys_fillStep_mono (d : List (String × Option String))
    (c k : String) (h : k ∈ dictKeys d) : k ∈ dictKeys (fillStep d c) := by
  unfold fillStep
  split
  · exact h
  · exact mem_dictKeys_dictSet_mono _ _ _ _ h

/-- The fill loop keeps existing keys. -/
theorem mem_dictKeys_fillFold_mono (cols : List String) :
    ∀ (d : List (String × Option String)) (k : String),
      k ∈ dictKeys d → k ∈ dictKeys (fillFold cols d) := by
  induction cols with
  | nil => exact fun d k h => h
  | cons c0 cols ih =>
    intro d k h
    exact ih _ _ (mem_dictKeys_fillStep_mono d c0 k h)

/-- Every listed column is present after the fill loop. -/
theorem mem_dictKeys_fillFold (cols : List String) :
    ∀ (d : List (String × Option String)) (c : String),
      c ∈ cols → c ∈ dictKeys (fillFold cols d) := by
  induction cols with
  | nil => exact fun d c h => absurd h (List.not_mem_nil c)
  | cons c0 cols ih =>
    intro d c h
    rcases List.mem_cons.mp h with h0 | hr
    · subst h0
      refine mem_dictKeys_fillFold_mono cols _ _ ?_
      unfold fillStep
      split
      · next hk => exact (dictHasKey_iff _ _).mp hk
      · exact mem_dictKeys_dictSet_self _ _ _
    · exact ih _ _ hr

/-- The fill loop never changes the value of a key already present. -/
theorem dictGet_fillFold_preserved (cols : List String) :
    ∀ (d : List (String × Option String)) (k : String),
      k ∈ dictKeys d → dictGet (fillFold cols d) k = dictGet d k := by
  induction cols with
  | nil => exact fun d k _ => rfl
  | cons c0 cols ih =>
    intro d k h
    have hstep_get : dictGet (fillStep d c0) k = dictGet d k := by
      unfold fillStep
      split
      · rfl
      · next hk =>
        by_cases h0 : k = c0
        · subst h0
          exact absurd ((dictHasKey_iff _ _).mpr h) hk
        · exact dictGet_dictSet_other _ _ _ _ h0
    rw [show fillFold (c0 :: cols) d = fillFold cols (fillStep d c0) from rfl,
      ih _ _ (mem_dictKeys_fillStep_mono d c0 k h), hstep_get]

/-- A listed column that was absent before the fill loop comes out
with value `none` (Python `None`). -/
theorem dictGet_fillFold_new (cols : List String) :
    ∀ (d : List (String × Option String)) (c : String),
      c ∈ cols → c ∉ dictKeys d → dictGet (fillFold cols d) c = some none := by
  induction cols with
  | nil => exact fun d c h _ => absurd h (List.not_mem_nil c)
  | cons c0 cols ih =>
    intro d c h hnot
    by_cases h0 : c0 = c
    · subst h0
      have hk : dictHasKey d c0 = false := by
        cases hq : dictHasKey d c0
        · rfl
        · exact absurd ((dictHasKey_iff _ _).mp hq) hnot
      have hstep : fillStep d c0 = dictSet d c0 none := by
        unfold fillStep
        rw [hk]
        simp
      calc dictGet (fillFold (c0 :: cols) d) c0
          = dictGet (fillFold cols (dictSet d c0 none)) c0 := by
            rw [show fillFold (c0 :: cols) d
              = fillFold cols (fillStep d c0) from rfl, hstep]
        _ = dictGet (dictSet d c0 none) c0 :=
            dictGet_fillFold_preserved cols _ _
              (mem_dictKeys_dictSet_self _ _ _)
        _ = some none := dictGet_dictSet_self _ _ _
    · have hc : c ∈ cols := by
        rcases List.mem_cons.mp h with h1 | h1
        · exact absurd h1.symm h0
        · exact h1
      have hnot2 : c ∉ dictKeys (fillStep d c0) := by
        unfold fillStep
        split
        · exact hnot
        · rw [dictKeys_dictSet]
          split
          · exact hnot
          · intro hmem
            rcases List.mem_append.mp hmem with h2 | h2
            · exact hnot h2
            · exact h0 (List.mem_singleton.mp h2).symm
      exact ih _ _ hc hnot2

/-- Counterexample to C6: a warning-flagged record is passed through
`validate_data` as-is (plus `_status`) — the fill loop is skipped
(the `continue` at main.py 663), so the non-ignored canonical column
`FIELD` is absent from the output record. -/
theorem validate_warning_row_lacks_columns :
    "FIELD" ∈ display_columns ["FIELD"] ∧
    validateRow ["FIELD"] [("_warning", "x")]
      = [("_warning", some "x"), ("_status", some "WARNING")] ∧
    "FIELD" ∉ dictKeys (validateRow ["FIELD"] [("_warning", "x")]) :=
  ⟨by decide, rfl, by decide⟩

/-- C6 (amended): for every input record that is NOT warning/error
flagged (empty records included), the validated record contains every
non-ignored canonical column, with value null for columns no raw field
mapped to (columns named `_status`/`_errors` excepted, as those slots
are overwritten); and the record `{"FIELD": "Bombay High"}` validated
against the WCR_WELLHEAD schema yields status VALID, an empty error
string, `FIELD = "Bombay High"`, and null for every other non-ignored
column. Warning/error-flagged records are instead kept as-is with only
a `_status` added. -/
theorem validate_data_fills_display_columns :
    (∀ (schema : List String) (row : Record),
      dictHasKey row "_warning" = false → dictHasKey row "_error" = false →
      ∀ c ∈ display_columns schema,
        c ∈ dictKeys (validateRow schema row) ∧
        (c ≠ "_status" → c ≠ "_errors" →
          c ∉ dictKeys (mapRowFields schema row).1 →
          dictGet (validateRow schema row) c = some none)) ∧
    validateRow wcr_wellhead_schema [("FIELD", "Bombay High")]
      = [("FIELD", some "Bombay High"), ("UWI", none), ("WELL_NAME", none),
         ("RELEASE_NAME", none), ("LOCATION_TYPE", none),
         ("BOTTOM_LONG", none), ("BOTTOM_LAT", none), ("SURFACE_LONG", none),
         ("SURFACE_LAT", none), ("CATEGORY", none), ("WELL_PROFILE", none),
         ("TARGET_DEPTH", none), ("DRILLED_DEPTH", none),
         ("LOGGERS_DEPTH", none), ("K_B", none), ("G_L", none),
         ("RIG", none), ("SPUD_DATE", none), ("HERMETICAL_TEST_DATE", none),
         ("DRILLING_COMPLETED_DATE", none), ("RIG_RELEASED_DATE", none),
         ("FORMATION_AT_TD", none), ("RELEASE_ORDER_NO", none),
         ("OBJECTIVE", none), ("STATUS", none),
         ("_status", some "VALID"), ("_errors", some "")] := by
  constructor
  · intro schema row hw he c hc
    have hcond : (dictHasKey row "_warning" || dictHasKey row "_error")
        = false := by
      rw [hw, he]
      rfl
    simp only [validateRow, hcond, Bool.false_eq_true, if_false]
    constructor
    · exact mem_dictKeys_dictSet_mono _ _ _ _
        (mem_dictKeys_dictSet_mono _ _ _ _
          (mem_dictKeys_fillFold _ _ _ hc))
    · intro hs he2 hnb
      rw [dictGet_dictSet_other _ _ _ _ he2, dictGet_dictSet_other _ _ _ _ hs]
      exact dictGet_fillFold_new _ _ _ hc hnb
  · rfl

/-- Witness for C6 at a concrete schema and record: the unmapped
non-ignored column `FIELD` is present with value null. -/
theorem validate_data_fills_display_columns_witness :
    "FIELD" ∈ dictKeys (validateRow ["FIELD", "UWI"] [("UWI", "X1")]) ∧
    dictGet (validateRow ["FIELD", "UWI"] [("UWI", "X1")]) "FIELD"
      = some none := by
  have h := validate_data_fills_display_columns.1 ["FIELD", "UWI"]
    [("UWI", "X1")] rfl rfl "FIELD" (by decide)
  exact ⟨h.1, h.2 (by decide) (by decide) (by decide)⟩

/-- Counterexample to C7: in a schema where a LATER column has the
same normalized form as `UWI` (dict comprehension: later entry wins),
the raw field `"u w i"` exact-matches to that later column, not to
`"UWI"`. -/
theorem exact_match_duplicate_counterexample :
    "UWI" ∈ (["UWI", "U W I"] : List String) ∧
    mapRawField ["UWI", "U W I"] "u w i" = some "U W I" ∧
    mapRawField ["UWI", "U W I"] "u w i" ≠ some "UWI" :=
  ⟨by decide, rfl, by decide⟩

/-- C7 (amended): normalization upper-cases and strips all
non-alphanumeric characters, so exact matching is case- and
whitespace-insensitive: for every schema containing `"UWI"` in which
no other column normalizes to `"UWI"`, the raw field `"u w i"` is
mapped to `"UWI"` by the exact-match rule (in general, to the last
schema column whose normalized form is `"UWI"`). -/
theorem exact_match_case_insensitive (schema : List String)
    (hmem : "UWI" ∈ schema)
    (huniq : ∀ k ∈ schema, normalize_key k = "UWI" → k = "UWI") :
    mapRawField schema "u w i" = some "UWI" := by
  have hlook : schemaMapLookup schema (normalize_key "u w i")
      = some "UWI" := by
    rw [show normalize_key "u w i" = "UWI" from rfl]
    unfold schemaMapLookup
    have hfm : "UWI" ∈ schema.filter (fun k => normalize_key k == "UWI") :=
      List.mem_filter.mpr ⟨hmem, by decide⟩
    have hne : schema.filter (fun k => normalize_key k == "UWI") ≠ [] :=
      List.ne_nil_of_mem hfm
    rw [List.getLast?_eq_getLast_of_ne_nil hne]
    have hmem2 := List.getLast_mem hne
    have hsp := List.mem_filter.mp hmem2
    exact congrArg some (huniq _ hsp.1 (by simpa using hsp.2))
  unfold mapRawField
  rw [hlook]

/-- Witness for C7 at a concrete schema. -/
theorem exact_match_case_insensitive_witness :
    mapRawField ["UWI", "FIELD"] "u w i" = some "UWI" :=
  exact_match_case_insensitive ["UWI", "FIELD"] (by decide) (by decide)

/-- C8: the substring fuzzy rule maps a raw field to a canonical
column only when the column's normalized form is contained in the
normalized raw field name and is strictly longer than 2 characters; in
particular a column whose normalized name has length at most 2 is
never produced by the substring rule. -/
theorem fuzzy_substring_guard :
    (∀ (schema : List String) (nk c : String),
      (normalize_key c).data.length ≤ 2 →
      fuzzySubstrMatch schema nk ≠ some c) ∧
    (∀ (schema : List String) (nk c : String),
      fuzzySubstrMatch schema nk = some c →
      strHas nk (normalize_key c) = true ∧
        (normalize_key c).data.length > 2) := by
  have main : ∀ (schema : List String) (nk c : String),
      fuzzySubstrMatch schema nk = some c →
      strHas nk (normalize_key c) = true ∧
        (normalize_key c).data.length > 2 := by
    intro schema nk c h
    unfold fuzzySubstrMatch at h
    rcases hfind : (sqlColsNormalized schema).find?
        (fun p => strHas nk p.1 && decide (p.1.data.length > 2))
      with _ | p
    · rw [hfind] at h
      simp at h
    · rw [hfind] at h
      simp only [Option.map_some', Option.some.injEq] at h
      have hp := List.find?_some hfind
      have hmem := List.mem_of_find?_eq_some hfind
      obtain ⟨k, _, hpk⟩ := List.mem_map.mp hmem
      have h1 : p.1 = normalize_key k := by rw [← hpk]
      have h2 : p.2 = k := by rw [← hpk]
      have hkc : k = c := by rw [← h2]; exact h
      subst hkc
      rw [h1] at hp
      simp only [Bool.and_eq_true, decide_eq_true_eq] at hp
      exact hp
  refine ⟨fun schema nk c hlen heq => ?_, main⟩
  have := (main schema nk c heq).2
  omega

/-- Witness for C8: the short normalized column `K_B` (length 2) is
not produced even when it is a substring of the field, while `FIELD`
(length 5) is produced for the raw field `FIELDNAME`. -/
theorem fuzzy_substring_guard_witness :
    fuzzySubstrMatch ["K_B", "FIELD"] "KB" ≠ some "K_B" ∧
    (strHas "FIELDNAME" (normalize_key "FIELD") = true ∧
      (normalize_key "FIELD").data.length > 2) :=
  ⟨fuzzy_substring_guard.1 ["K_B", "FIELD"] "KB" "K_B" (by decide),
   fuzzy_substring_guard.2 ["FIELD"] "FIELDNAME" "FIELD" (by decide)⟩
